import Mathlib

/-!
Verification of the documentation extraction and retrieval engine of the
`freshservice-rag` service against its design specification.

The development shallowly embeds the Rust sources:

* `src/rag/pipeline.rs` — relevance scoring, ranking, confidence estimation;
* `src/scraper/freshservice_scraper.rs` — path/method extraction, parameter
  table parsing, endpoint section parsing, the two extraction strategies with
  shared `(method, path)` deduplication, and the fallback catalog.

Modelling conventions:

* Rust `String`/`&str` values are modelled as lists of Unicode code points
  (`Str := List Nat`); `str` converts a Lean string literal.  `to_lowercase`,
  `to_uppercase`, `trim` and `split_whitespace` are modelled by their ASCII
  case/space behaviour.
* `f32` score arithmetic is modelled by exact rational arithmetic (`ℚ`).
* HTML documents are abstracted to the data the scraper's selectors extract
  from them (headings, code-block texts, table rows, element ids); everything
  computed from that data is translated faithfully from the source.
* `Vec::sort_by`, which the Rust documentation guarantees to be a stable
  sort, is modelled by the verified stable `List.mergeSort` with the same
  comparator.
* The regexes of `extract_path_from_text` and `extract_default_value` are
  modelled by explicit leftmost-match scanners with the same greedy
  semantics.
-/

attribute [local semireducible] Rat.add Rat.mul Rat.inv Rat.sub Rat.ofScientific

/-- Strings are modelled as lists of code points. -/
abbrev Str := List Nat

/-- Converts a Lean string literal into the `Str` model. -/
def str (s : String) : Str := s.data.map Char.toNat

/-- ASCII whitespace (models `char::is_whitespace` on the inputs at hand). -/
def isWs (c : Nat) : Bool := c = 32 || c = 9 || c = 10 || c = 13 || c = 11 || c = 12

/-- ASCII lower-casing of one code point (models `to_lowercase`). -/
def toLowerC (c : Nat) : Nat := if 65 ≤ c ∧ c ≤ 90 then c + 32 else c

/-- ASCII upper-casing of one code point (models `to_uppercase`). -/
def toUpperC (c : Nat) : Nat := if 97 ≤ c ∧ c ≤ 122 then c - 32 else c

/-- Models Rust `str::to_lowercase`. -/
def toLowerS (s : Str) : Str := s.map toLowerC

/-- Models Rust `str::to_uppercase`. -/
def toUpperS (s : Str) : Str := s.map toUpperC

/-- Models Rust `str::contains(&str)`: substring test. -/
def containsSub (hay needle : Str) : Bool :=
  match hay with
  | [] => needle.isEmpty
  | c :: t => needle.isPrefixOf (c :: t) || containsSub t needle

/-- Worker for `splitWs`; `acc` holds the current word reversed. -/
def splitWsAux : Str → Str → List Str
  | [], acc => if acc.isEmpty then [] else [acc.reverse]
  | c :: rest, acc =>
    if isWs c then
      if acc.isEmpty then splitWsAux rest [] else acc.reverse :: splitWsAux rest []
    else splitWsAux rest (c :: acc)

/-- Models Rust `str::split_whitespace` (empty chunks are skipped). -/
def splitWs (s : Str) : List Str := splitWsAux s []

/-- Models Rust `str::trim`. -/
def trimS (s : Str) : Str := ((s.dropWhile isWs).reverse.dropWhile isWs).reverse

/-- Models Rust `str::trim_end_matches(ch)`. -/
def trimEndMatches (ch : Nat) (s : Str) : Str :=
  (s.reverse.dropWhile (fun c => c = ch)).reverse

/-- Mirrors `ApiParameter` from `src/models/api_docs.rs`. -/
structure ApiParameter where
  name : Str
  param_type : Str
  description : Str
  required : Bool
  default : Option Str
  deriving Repr, DecidableEq

/-- Mirrors `ApiEndpoint` from `src/models/api_docs.rs`. -/
structure ApiEndpoint where
  name : Str
  description : Str
  method : Str
  path : Str
  parameters : List ApiParameter
  curl_example : Option Str
  deriving Repr, DecidableEq

/-- Mirrors `ScrapedDocumentation` (the scrape timestamp is abstracted). -/
structure ScrapedDocumentation where
  base_url : Str
  endpoints : List ApiEndpoint
  scraped_at : Nat
  deriving Repr, DecidableEq

/-- The parameter `for`-loop of `calculate_relevance_score`: the first
parameter whose name contains the query adds `0.4` and stops the loop, a
parameter whose description (but not name) contains it adds `0.2` and stops
the loop. -/
def paramLoopScore (params : List ApiParameter) (query_lower : Str) : ℚ :=
  match params with
  | [] => 0
  | p :: rest =>
    if containsSub (toLowerS p.name) query_lower then 0.4
    else if containsSub (toLowerS p.description) query_lower then 0.2
    else paramLoopScore rest query_lower

/-- Mirrors `RagPipeline::calculate_relevance_score` (pipeline.rs lines
34-91): weighted additive lexical score, divided by `7.0` and capped at 1. -/
def calculate_relevance_score (endpoint : ApiEndpoint) (query_lower : Str) : ℚ :=
  let query_words := splitWs query_lower
  let name_lower := toLowerS endpoint.name
  let nameExact : ℚ := if containsSub name_lower query_lower then 2.0 else 0
  let nameWords : ℚ :=
    ((query_words.filter (fun word => containsSub name_lower word)).length : ℚ) * 0.5
  let desc_lower := toLowerS endpoint.description
  let descExact : ℚ := if containsSub desc_lower query_lower then 1.0 else 0
  let descWords : ℚ :=
    ((query_words.filter (fun word => containsSub desc_lower word)).length : ℚ) * 0.3
  let pathScore : ℚ := if containsSub (toLowerS endpoint.path) query_lower then 0.8 else 0
  let method_lower := toLowerS endpoint.method
  let methodScore : ℚ :=
    if query_words.any (fun word =>
        method_lower == word ||
        (method_lower == str ("get") && word == str ("list")) ||
        (method_lower == str ("get") && word == str ("view")) ||
        (method_lower == str ("get") && word == str ("fetch"))) then 0.8 else 0
  let paramScore := paramLoopScore endpoint.parameters query_lower
  let curlScore : ℚ :=
    if containsSub query_lower (str ("curl")) && endpoint.curl_example.isSome then 1.0 else 0
  let score :=
    nameExact + nameWords + descExact + descWords + pathScore + methodScore +
      paramScore + curlScore
  min (score / 7.0) 1

/-- Mirrors `RagPipeline::find_relevant_endpoints` (pipeline.rs lines 13-32):
score every endpoint against the lower-cased query, keep scores above `0.1`,
stable-sort descending by score. -/
def find_relevant_endpoints (doc : ScrapedDocumentation) (query : Str) :
    List (ApiEndpoint × ℚ) :=
  let query_lower := toLowerS query
  let matched := doc.endpoints.filterMap (fun endpoint =>
    let score := calculate_relevance_score endpoint query_lower
    if score > 0.1 then some (endpoint, score) else none)
  matched.mergeSort (fun a b => decide (b.2 ≤ a.2))

/-- Mirrors `RagPipeline::get_top_matches` (pipeline.rs lines 184-188). -/
def get_top_matches (doc : ScrapedDocumentation) (query : Str) (limit : Nat) :
    List (ApiEndpoint × ℚ) :=
  (find_relevant_endpoints doc query).take limit

/-- Mirrors `RagPipeline::assess_query_quality` (pipeline.rs lines 146-177). -/
def assess_query_quality (query : Str) : ℚ :=
  let query_lower := toLowerS query
  let words := splitWs query_lower
  if words.isEmpty then 0.1
  else
    let api_terms : List Str :=
      [str ("api"), str ("endpoint"), str ("method"), str ("curl"), str ("request"),
       str ("response"), str ("ticket"), str ("create"), str ("get"), str ("list"),
       str ("update"), str ("delete"), str ("view"), str ("post"), str ("put"),
       str ("patch"), str ("fetch"), str ("retrieve")]
    let term_matches := (api_terms.filter (fun term => containsSub query_lower term)).length
    let term_score : ℚ := min ((term_matches : ℚ) / 3.0) 1
    let length_score : ℚ :=
      if words.length = 0 then 0.1
      else if words.length = 1 then 0.3
      else if words.length ≤ 3 then 0.6
      else 0.9
    min (length_score * 0.6 + term_score * 0.4) 1

/-- Models Rust `f32::clamp(lo, hi)`. -/
def clampQ (x lo hi : ℚ) : ℚ := if x < lo then lo else if x > hi then hi else x

/-- Mirrors `RagPipeline::calculate_confidence` (pipeline.rs lines 132-144). -/
def calculate_confidence (query : Str) (found : List (ApiEndpoint × ℚ)) : ℚ :=
  if found.isEmpty then 0.1
  else
    let max_score := (found.head?.map (fun m => m.2)).getD 0
    let query_quality := assess_query_quality query
    let confidence := max_score * 0.7 + query_quality * 0.3
    clampQ confidence 0.1 1

/-- Character class `[a-zA-Z0-9/_\-{}]` of the path regexes. -/
def pathClass (c : Nat) : Bool :=
  (48 ≤ c && c ≤ 57) || (65 ≤ c && c ≤ 90) || (97 ≤ c && c ≤ 122) ||
    c = 47 || c = 95 || c = 45 || c = 123 || c = 125

/-- The literal `/api/v2/` that starts every path pattern. -/
def apiV2 : Str := str ("/api/v2/")

/-- Greedy match of `/api/v2/[a-zA-Z0-9/_\-{}]+` anchored at the start of
`s`, returning the matched path. -/
def tryCore (s : Str) : Option Str :=
  if apiV2.isPrefixOf s then
    let run := (s.drop 8).takeWhile pathClass
    if run.isEmpty then none else some (apiV2 ++ run)
  else none

/-- Anchored match of a quoted path pattern `q(/api/v2/[...]+)q` for quote
character `q`; the character class excludes quotes, so the greedy run must be
followed by the closing quote. -/
def tryQuoted (q : Nat) (s : Str) : Option Str :=
  match s with
  | [] => none
  | c :: t =>
    if c = q && apiV2.isPrefixOf t then
      let run := (t.drop 8).takeWhile pathClass
      if run.isEmpty then none
      else if (t.drop (8 + run.length)).head? = some q then some (apiV2 ++ run)
      else none
    else none

/-- Anchored match of `https://[^/]+(/api/v2/[...]+)`: `[^/]+` cannot cross a
slash, so the captured group starts at the first slash after the host. -/
def tryUrl (s : Str) : Option Str :=
  if (str ("https://")).isPrefixOf s then
    let rest := s.drop 8
    let host := rest.takeWhile (fun c => !(c = 47))
    if host.isEmpty then none else tryCore (rest.drop host.length)
  else none

/-- Leftmost-match semantics: try the anchored matcher at every start
position, earliest position first. -/
def scanFirst (f : Str → Option Str) : Str → Option Str
  | [] => f []
  | s@(_ :: t) => (f s).orElse (fun _ => scanFirst f t)

/-- Mirrors `FreshserviceScraper::extract_path_from_text` (scraper lines
554-581): four regex patterns tried in order (full URL, single-quoted,
double-quoted, plain), trailing `'`, `"`, `\` stripped from the capture, and
the sentinel `/api/v2/unknown` when nothing matches. -/
def extract_path_from_text (text : Str) : Str :=
  let found := (scanFirst tryUrl text).orElse (fun _ =>
    (scanFirst (tryQuoted 39) text).orElse (fun _ =>
      (scanFirst (tryQuoted 34) text).orElse (fun _ => scanFirst tryCore text)))
  match found with
  | some path => trimEndMatches 92 (trimEndMatches 34 (trimEndMatches 39 path))
  | none => str ("/api/v2/unknown")

/-- Separator class `[:\s]` of the default-value regex. -/
def sepClass (c : Nat) : Bool := c = 58 || isWs c

/-- Capture class `[^\s,.]` of the default-value regex. -/
def capClass (c : Nat) : Bool := !(isWs c || c = 44 || c = 46)

/-- Backtracking over the separator-run length `k`, longest first, as the
greedy `[:\s]+` of the default-value regex does. -/
def edvTry (rest : Str) : Nat → Option Str
  | 0 => none
  | k + 1 =>
    let cap := (rest.drop (k + 1)).takeWhile capClass
    if cap.isEmpty then edvTry rest k else some cap

/-- Leftmost match of `[Dd]efault[:\s]+([^\s,.]+)`. -/
def edvScan : Str → Option Str
  | [] => none
  | c :: t =>
    (if (c = 68 || c = 100) && (str ("efault")).isPrefixOf t then
      let rest := t.drop 6
      edvTry rest (rest.takeWhile sepClass).length
    else none).orElse (fun _ => edvScan t)

/-- Mirrors the free function `extract_default_value` (scraper lines 6-14). -/
def extract_default_value (description : Str) : Str := (edvScan description).getD []

/-- Mirrors `FreshserviceScraper::parse_parameter_row` (scraper lines
482-534); the input is the list of `td` cell texts of one table row. -/
def parse_parameter_row (cells : List Str) : Option ApiParameter :=
  if cells.length ≥ 2 then
    let name := trimS (cells.getD 0 [])
    let description := trimS (cells.getD 1 [])
    let param_type :=
      match cells.get? 2 with
      | some c => toLowerS (trimS c)
      | none =>
        let desc_lower := toLowerS description
        if containsSub desc_lower (str ("integer")) ||
            containsSub desc_lower (str ("number")) then str ("integer")
        else if containsSub desc_lower (str ("boolean")) then str ("boolean")
        else if containsSub desc_lower (str ("array")) then str ("array")
        else str ("string")
    let required := containsSub (toLowerS description) (str ("required")) ||
      containsSub (toLowerS description) (str ("mandatory"))
    let dflt :=
      if containsSub (toLowerS description) (str ("default")) then
        some (extract_default_value description)
      else none
    if !name.isEmpty then
      some { name := name, param_type := param_type, description := description,
             required := required, default := dflt }
    else none
  else none

/-- One HTML `table`: its full rendered text and the `td` cell texts of each
`tr` row, in document order. -/
structure HtmlTable where
  text : Str
  rows : List (List Str)
  deriving Repr, DecidableEq

/-- One HTML subtree believed to describe one endpoint, abstracted to the
data the selectors of `parse_endpoint_section` read: the text of the first
`h2`, the texts of the `pre`/`.highlight` code blocks, and the tables. -/
structure DocSection where
  h2 : Option Str
  codeBlocks : List Str
  tables : List HtmlTable
  deriving Repr, DecidableEq

/-- One code block of the main `div#tickets` container: its text and the
result of the ancestor walk `find_description_for_code_block` (an HTML
structure lookup, abstracted as input data). -/
structure CodeBlock where
  text : Str
  descHint : Option Str
  deriving Repr, DecidableEq

/-- One element matched by `div[id*='ticket']`: its id and its section. -/
structure TicketDiv where
  id : Str
  sec : DocSection
  deriving Repr, DecidableEq

/-- A parsed HTML document, abstracted to what the two extraction strategies
select from it. -/
structure HtmlDoc where
  ticketDivs : List TicketDiv
  mainTickets : Option (List CodeBlock)
  deriving Repr, DecidableEq

/-- Mirrors `FreshserviceScraper::extract_parameters_from_section` (scraper
lines 452-480): every table whose text mentions parameter/attribute/field
contributes its rows after the header, in document order. -/
def extract_parameters_from_section (sec : DocSection) : List ApiParameter :=
  (sec.tables.map (fun table =>
    let table_text := toLowerS table.text
    if containsSub table_text (str ("parameter")) ||
        containsSub table_text (str ("attribute")) ||
        containsSub table_text (str ("field")) then
      (table.rows.drop 1).filterMap parse_parameter_row
    else [])).flatten

/-- Mirrors `FreshserviceScraper::parse_endpoint_section` (scraper lines
373-432). -/
def parse_endpoint_section (sec : DocSection) : Option ApiEndpoint :=
  let description :=
    match sec.h2 with
    | some t => trimS t
    | none => str ("API endpoint")
  let curl_example := sec.codeBlocks.head?.map trimS
  match curl_example with
  | none => none
  | some curl =>
    let methodFound : Option Str :=
      if containsSub curl (str ("-X POST")) then some (str ("POST"))
      else if containsSub curl (str ("-X PUT")) then some (str ("PUT"))
      else if containsSub curl (str ("-X DELETE")) then some (str ("DELETE"))
      else if containsSub curl (str ("-X PATCH")) then some (str ("PATCH"))
      else if containsSub curl (str ("-X GET")) || containsSub curl (str ("curl")) then
        some (str ("GET"))
      else none
    match methodFound with
    | none => none
    | some method =>
      let path := extract_path_from_text curl
      if path = str ("/api/v2/unknown") then none
      else
        some { name := description, description := description, method := method,
               path := path, parameters := extract_parameters_from_section sec,
               curl_example := some curl }

/-- Number of occurrences of character `c` (models `str::matches(c).count()`). -/
def countChar (c : Nat) (s : Str) : Nat := (s.filter (fun d => d = c)).length

/-- Mirrors `FreshserviceScraper::infer_description_from_path` (scraper lines
192-216), with the match arms tried in source order. -/
def infer_description_from_path (path method : Str) : Str :=
  if method == str ("POST") && (str ("/tickets")).isSuffixOf path then
    str ("Create a Ticket")
  else if method == str ("GET") &&
      (containsSub path (str ("/tickets/\x7bid\x7d")) || countChar 47 path == 4) then
    str ("View a Ticket")
  else if method == str ("GET") && (str ("/tickets")).isSuffixOf path then
    str ("List All Tickets")
  else if method == str ("PUT") &&
      (containsSub path (str ("/tickets/\x7bid\x7d")) || countChar 47 path == 4) then
    str ("Update a Ticket")
  else if method == str ("DELETE") &&
      (containsSub path (str ("/tickets/\x7bid\x7d")) || countChar 47 path == 4) then
    str ("Delete a Ticket")
  else if method == str ("PUT") && containsSub path (str ("/restore")) then
    str ("Restore a Ticket")
  else if method == str ("POST") && containsSub path (str ("/notes")) then
    str ("Create Ticket Note")
  else if method == str ("GET") && containsSub path (str ("/notes")) &&
      decide (countChar 47 path > 4) then
    str ("View a Ticket Note")
  else if method == str ("GET") && containsSub path (str ("/notes")) then
    str ("List Ticket Notes")
  else if method == str ("PUT") && containsSub path (str ("/notes")) then
    str ("Update Ticket Note")
  else if method == str ("DELETE") && containsSub path (str ("/notes")) then
    str ("Delete Ticket Note")
  else if method == str ("POST") && containsSub path (str ("/tasks")) then
    str ("Create Ticket Task")
  else if method == str ("GET") && containsSub path (str ("/tasks")) then
    str ("View Ticket Tasks")
  else if method == str ("PUT") && containsSub path (str ("/tasks")) then
    str ("Update Ticket Task")
  else if method == str ("DELETE") && containsSub path (str ("/tasks")) then
    str ("Delete Ticket Task")
  else if method == str ("POST") && containsSub path (str ("/time_entries")) then
    str ("Create Time Entry")
  else if method == str ("GET") && containsSub path (str ("/time_entries")) then
    str ("View Time Entries")
  else if method == str ("PUT") && containsSub path (str ("/time_entries")) then
    str ("Update Time Entry")
  else if method == str ("DELETE") && containsSub path (str ("/time_entries")) then
    str ("Delete Time Entry")
  else method ++ str (" Ticket Operation")

/-- The deduplication key `format!("{} {}", method, path)` (code point 32 is
the space). -/
def dedupKey (e : ApiEndpoint) : Str := e.method ++ 32 :: e.path

/-- The method-detection block of strategy B (scraper lines 146-156). -/
def codeBlockMethod (code_text : Str) : Str :=
  if containsSub code_text (str ("-X POST")) then str ("POST")
  else if containsSub code_text (str ("-X PUT")) then str ("PUT")
  else if containsSub code_text (str ("-X DELETE")) then str ("DELETE")
  else if containsSub code_text (str ("-X PATCH")) then str ("PATCH")
  else str ("GET")

/-- The record strategy B builds from one qualifying code block. -/
def codeBlockRecord (cb : CodeBlock) : ApiEndpoint :=
  let method := codeBlockMethod cb.text
  let path := extract_path_from_text cb.text
  let key := method ++ 32 :: path
  { name := key, description := cb.descHint.getD (infer_description_from_path path method),
    method := method, path := path, parameters := [],
    curl_example := some (trimS cb.text) }

/-- Whether strategy B keeps a code block: its text must contain `curl` and
`/tickets`, and the extracted path must contain `/tickets`. -/
def codeBlockQualifies (cb : CodeBlock) : Bool :=
  containsSub cb.text (str ("curl")) && containsSub cb.text (str ("/tickets")) &&
    containsSub (extract_path_from_text cb.text) (str ("/tickets"))

/-- Mirrors the loop body of
`FreshserviceScraper::extract_code_blocks_from_section` (scraper lines
131-190) with its local seen-set: skip blocks without `curl`/`/tickets` in
the text, skip paths without `/tickets`, skip keys already seen. -/
def codeBlocksLoop : List CodeBlock → List Str → List ApiEndpoint
  | [], _ => []
  | cb :: rest, seen =>
    if !(containsSub cb.text (str ("curl"))) ||
        !(containsSub cb.text (str ("/tickets"))) then
      codeBlocksLoop rest seen
    else
      let path := extract_path_from_text cb.text
      if !(containsSub path (str ("/tickets"))) then codeBlocksLoop rest seen
      else
        let key := codeBlockMethod cb.text ++ 32 :: path
        if key ∈ seen then codeBlocksLoop rest seen
        else codeBlockRecord cb :: codeBlocksLoop rest (key :: seen)

/-- Mirrors `FreshserviceScraper::extract_code_blocks_from_section`. -/
def extract_code_blocks_from_section (blocks : List CodeBlock) : List ApiEndpoint :=
  codeBlocksLoop blocks []

/-- The id filter of strategy A: the three container ids are skipped. -/
def excludedId (id : Str) : Bool :=
  id == str ("tickets") || id == str ("tickets-panel") || id == str ("ticket_attributes")

/-- The candidate records of strategy A (scraper lines 76-100): each
non-container ticket div parsed by `parse_endpoint_section`, in document
order, before the shared seen-set check. -/
def strategyA (doc : HtmlDoc) : List ApiEndpoint :=
  (doc.ticketDivs.filter (fun d => !excludedId d.id)).filterMap
    (fun d => parse_endpoint_section d.sec)

/-- The records of strategy B (scraper lines 102-118): the code blocks of
`div#tickets` run through `extract_code_blocks_from_section`. -/
def strategyB (doc : HtmlDoc) : List ApiEndpoint :=
  match doc.mainTickets with
  | some blocks => extract_code_blocks_from_section blocks
  | none => []

/-- The shared seen-set filter of `extract_endpoints`: keeps a record only
when its `(method, path)` key is unseen, and then marks the key seen. -/
def dedupFold : List ApiEndpoint → List Str → List ApiEndpoint × List Str
  | [], seen => ([], seen)
  | e :: rest, seen =>
    if dedupKey e ∈ seen then dedupFold rest seen
    else
      let next := dedupFold rest (dedupKey e :: seen)
      (e :: next.1, next.2)

/-- First fallback record: Create Ticket (scraper lines 735-778). -/
def fallbackCreateTicket : ApiEndpoint :=
  { name := str ("Create Ticket"),
    description := str ("Create a new ticket in Freshservice"),
    method := str ("POST"),
    path := str ("/api/v2/tickets"),
    parameters :=
      [{ name := str ("subject"), param_type := str ("string"),
         description := str ("Subject of the ticket"), required := true, default := none },
       { name := str ("description"), param_type := str ("string"),
         description := str ("HTML content of the ticket"), required := true, default := none },
       { name := str ("email"), param_type := str ("string"),
         description := str ("Email address of the requester"), required := true,
         default := none },
       { name := str ("priority"), param_type := str ("integer"),
         description := str ("Priority of the ticket (1-4)"), required := false,
         default := some (str ("1")) },
       { name := str ("status"), param_type := str ("integer"),
         description := str ("Status of the ticket (2-5)"), required := false,
         default := some (str ("2")) }],
    curl_example := some (str ("curl -v -u yourapikey:X -H \x22Content-Type: application/json\x22 -d \x27\x7b\x22subject\x22:\x22Ticket Title\x22,\x22description\x22:\x22<h2>Ticket content</h2>\x22,\x22email\x22:\x22user@example.com\x22,\x22priority\x22:1,\x22status\x22:2\x7d\x27 -X POST \x22https://domain.freshservice.com/api/v2/tickets\x22")) }

/-- Second fallback record: Get Ticket (scraper lines 780-802). -/
def fallbackGetTicket : ApiEndpoint :=
  { name := str ("Get Ticket"),
    description := str ("Retrieve a specific ticket by ID"),
    method := str ("GET"),
    path := str ("/api/v2/tickets/\x7bid\x7d"),
    parameters :=
      [{ name := str ("id"), param_type := str ("integer"),
         description := str ("Unique identifier of the ticket"), required := true,
         default := none },
       { name := str ("include"), param_type := str ("string"),
         description := str ("Include additional data (conversations, requester, stats)"),
         required := false, default := none }],
    curl_example := some (str ("curl -v -u yourapikey:X -X GET \x22https://domain.freshservice.com/api/v2/tickets/1\x22")) }

/-- Third fallback record: List Tickets (scraper lines 804-833). -/
def fallbackListTickets : ApiEndpoint :=
  { name := str ("List Tickets"),
    description := str ("Get a list of all tickets with optional filtering"),
    method := str ("GET"),
    path := str ("/api/v2/tickets"),
    parameters :=
      [{ name := str ("page"), param_type := str ("integer"),
         description := str ("Page number for pagination"), required := false,
         default := some (str ("1")) },
       { name := str ("per_page"), param_type := str ("integer"),
         description := str ("Number of records per page (max 100)"), required := false,
         default := some (str ("30")) },
       { name := str ("filter"), param_type := str ("string"),
         description := str ("Filter tickets by predefined filters"), required := false,
         default := none }],
    curl_example := some (str ("curl -v -u yourapikey:X -X GET \x22https://domain.freshservice.com/api/v2/tickets?page=1&per_page=30\x22")) }

/-- Fourth fallback record: Update Ticket (scraper lines 835-864). -/
def fallbackUpdateTicket : ApiEndpoint :=
  { name := str ("Update Ticket"),
    description := str ("Update an existing ticket"),
    method := str ("PUT"),
    path := str ("/api/v2/tickets/\x7bid\x7d"),
    parameters :=
      [{ name := str ("id"), param_type := str ("integer"),
         description := str ("Unique identifier of the ticket"), required := true,
         default := none },
       { name := str ("priority"), param_type := str ("integer"),
         description := str ("Priority of the ticket"), required := false, default := none },
       { name := str ("status"), param_type := str ("integer"),
         description := str ("Status of the ticket"), required := false, default := none }],
    curl_example := some (str ("curl -v -u yourapikey:X -H \x22Content-Type: application/json\x22 -d \x27\x7b\x22priority\x22:2,\x22status\x22:3\x7d\x27 -X PUT \x22https://domain.freshservice.com/api/v2/tickets/1\x22")) }

/-- Fifth fallback record: Delete Ticket (scraper lines 866-881). -/
def fallbackDeleteTicket : ApiEndpoint :=
  { name := str ("Delete Ticket"),
    description := str ("Delete a ticket permanently"),
    method := str ("DELETE"),
    path := str ("/api/v2/tickets/\x7bid\x7d"),
    parameters :=
      [{ name := str ("id"), param_type := str ("integer"),
         description := str ("Unique identifier of the ticket to delete"), required := true,
         default := none }],
    curl_example := some (str ("curl -v -u yourapikey:X -X DELETE \x22https://domain.freshservice.com/api/v2/tickets/1\x22")) }

/-- Mirrors `FreshserviceScraper::fallback_endpoint_extraction` (scraper
lines 731-884): the fixed catalog of the five canonical ticket operations. -/
def fallback_endpoint_extraction : List ApiEndpoint :=
  [fallbackCreateTicket, fallbackGetTicket, fallbackListTickets,
   fallbackUpdateTicket, fallbackDeleteTicket]

/-- Mirrors `FreshserviceScraper::extract_endpoints` (scraper lines 72-129):
strategy A and strategy B filtered through one shared seen-set, with the
fallback catalog substituted when the combined result is empty. -/
def extract_endpoints (doc : HtmlDoc) : List ApiEndpoint :=
  let stepA := dedupFold (strategyA doc) []
  let stepB := dedupFold (strategyB doc) stepA.2
  let endpoints := stepA.1 ++ stepB.1
  if endpoints.isEmpty then fallback_endpoint_extraction else endpoints

/-- The records strategy B constructs before its seen-set check: the
qualifying code blocks of `div#tickets` (text contains `curl` and `/tickets`,
extracted path contains `/tickets`), in document order. -/
def strategyBRaw : List CodeBlock → List ApiEndpoint
  | [] => []
  | cb :: rest =>
    if codeBlockQualifies cb then codeBlockRecord cb :: strategyBRaw rest
    else strategyBRaw rest

/-- Statement of the specification's deduplication rule, written from its
words: of all records with one `(method, path)` key, only the
first-encountered survives, in encounter order. -/
def keepFirstByKey : List ApiEndpoint → List ApiEndpoint
  | [] => []
  | e :: rest =>
    e :: keepFirstByKey (rest.filter (fun e2 => !(dedupKey e2 == dedupKey e)))
termination_by l => l.length
decreasing_by
  simp only [List.length_cons]
  exact Nat.lt_succ_of_le (List.length_filter_le _ rest)

/-- Example endpoint whose name is the single word `ticket`. -/
def exTicketEndpoint : ApiEndpoint :=
  { name := str ("ticket"), description := [], method := [], path := [],
    parameters := [], curl_example := none }

/-- Example corpus holding six copies of `exTicketEndpoint`. -/
def exSixTicketDoc : ScrapedDocumentation :=
  { base_url := [], endpoints := List.replicate 6 exTicketEndpoint, scraped_at := 0 }

/-- Example endpoint whose name is `create ticket` and whose other fields are
empty. -/
def exNameOnlyEndpoint : ApiEndpoint :=
  { name := str ("create ticket"), description := [], method := [], path := [],
    parameters := [], curl_example := none }

/-- Example document with a single ticket div yielding exactly one record. -/
def exSingleDivDoc : HtmlDoc :=
  { ticketDivs :=
      [{ id := str ("create_ticket"),
         sec := { h2 := some (str ("Create Ticket")),
                  codeBlocks := [str ("curl \x27/api/v2/tickets\x27")],
                  tables := [] } }],
    mainTickets := none }

/-- Example document in which both strategies find nothing. -/
def exEmptyHtmlDoc : HtmlDoc := { ticketDivs := [], mainTickets := none }

/-- Example section whose code block contains `curl` but no extractable
path. -/
def exNoPathSection : DocSection :=
  { h2 := none, codeBlocks := [str ("curl https://example.com/help")], tables := [] }

/-- The fallback catalog wrapped as a documentation snapshot. -/
def fallbackDocumentation : ScrapedDocumentation :=
  { base_url := str ("https://api.freshservice.com"),
    endpoints := fallback_endpoint_extraction, scraped_at := 0 }

theorem containsSub_infix_iff {hay needle : Str} :
    containsSub hay needle = true ↔ needle <:+: hay := by
  induction hay with
  | nil =>
    simp [containsSub, List.isEmpty_iff]
  | cons c t ih =>
    simp [containsSub, List.infix_cons_iff, ih]

theorem containsSub_extend {hay t ext : Str} (h : containsSub hay t = true) :
    containsSub (hay ++ ext) t = true :=
  containsSub_infix_iff.mpr
    ((containsSub_infix_iff.mp h).trans (List.prefix_append hay ext).isInfix)

theorem containsSub_of_prefix_of_contains {hay q r : Str} (hpre : q <+: r)
    (h : containsSub hay r = true) : containsSub hay q = true :=
  containsSub_infix_iff.mpr (hpre.isInfix.trans (containsSub_infix_iff.mp h))

theorem splitWsAux_append_ws {c : Nat} (hc : isWs c = true) (ys xs : Str) :
    ∀ acc, splitWsAux (xs ++ c :: ys) acc = splitWsAux xs acc ++ splitWsAux ys [] := by
  induction xs with
  | nil =>
    intro acc
    simp only [List.nil_append, splitWsAux, hc, if_true]
    cases h : acc.isEmpty <;> simp [splitWsAux, h]
  | cons a xs ih =>
    intro acc
    cases ha : isWs a with
    | false => simp [List.cons_append, splitWsAux, ha, ih]
    | true =>
      simp only [List.cons_append, splitWsAux, ha, if_true]
      cases h : acc.isEmpty <;> simp [ih]

theorem splitWsAux_all_non_ws (w : Str) (hw : ∀ c ∈ w, isWs c = false) :
    ∀ acc, splitWsAux w acc =
      if (acc.reverse ++ w).isEmpty then [] else [acc.reverse ++ w] := by
  induction w with
  | nil => intro acc; simp [splitWsAux]
  | cons a w ih =>
    intro acc
    have ha : isWs a = false := hw a (List.mem_cons_self a w)
    simp only [splitWsAux, ha, Bool.false_eq_true, if_false]
    rw [ih (fun c hc => hw c (List.mem_cons_of_mem a hc)) (a :: acc)]
    simp

theorem splitWs_append_word (q w : Str) (hw : w ≠ [])
    (hnws : ∀ c ∈ w, isWs c = false) :
    splitWs (q ++ 32 :: w) = splitWs q ++ [w] := by
  unfold splitWs
  rw [splitWsAux_append_ws (by decide) w q [], splitWsAux_all_non_ws w hnws []]
  simp [hw]

theorem clampQ_eq_max_min (x lo hi : ℚ) (h : lo ≤ hi) :
    clampQ x lo hi = max lo (min hi x) := by
  unfold clampQ
  rcases lt_or_le x lo with h1 | h1
  · rw [if_pos h1, min_eq_right (by linarith), max_eq_left (by linarith)]
  · rw [if_neg (not_lt.mpr h1)]
    rcases lt_or_le hi x with h2 | h2
    · rw [if_pos h2, min_eq_left (by linarith), max_eq_right h]
    · rw [if_neg (not_lt.mpr h2), min_eq_right h2, max_eq_right h1]

theorem paramLoopScore_eq_zero {params : List ApiParameter} {q : Str}
    (h : ∀ p ∈ params, containsSub (toLowerS p.name) q = false ∧
        containsSub (toLowerS p.description) q = false) :
    paramLoopScore params q = 0 := by
  induction params with
  | nil => rfl
  | cons p rest ih =>
    have hp := h p (List.mem_cons_self p rest)
    simp only [paramLoopScore, hp.1, hp.2, Bool.false_eq_true, if_false]
    exact ih (fun p hp => h p (List.mem_cons_of_mem _ hp))

/-- C9 counterexample: a parameter row whose description is `Mandatory field`
is parsed with `required = true` although the description does not contain
the word `required` in any letter case, refuting the claimed
if-and-only-if. -/
theorem c9_counterexample :
    parse_parameter_row [str ("id"), str ("Mandatory field")] =
      some { name := str ("id"), param_type := str ("string"),
             description := str ("Mandatory field"), required := true,
             default := none } ∧
    containsSub (toLowerS (str ("Mandatory field"))) (str ("required")) = false := by
  constructor
  · decide
  · decide

/-- C9 (amended): for every parameter-table row parsed into an
`ApiParameter`, the required flag is true if and only if the row's
description contains the word `required` or the word `mandatory`,
case-insensitively. -/
theorem c9_required_iff (cells : List Str) (p : ApiParameter)
    (h : parse_parameter_row cells = some p) :
    p.required = (containsSub (toLowerS p.description) (str ("required")) ||
      containsSub (toLowerS p.description) (str ("mandatory"))) := by
  unfold parse_parameter_row at h
  split at h
  · split at h
    · dsimp only at h
      split at h
      · cases h; rfl
      · exact Option.noConfusion h
    · dsimp only at h
      split at h
      · cases h; rfl
      · exact Option.noConfusion h
  · exact Option.noConfusion h

/-- C9 witness: the theorem applied to a concrete row whose description
starts with `Required`. -/
theorem c9_witness :
    ({ name := str ("subject"), param_type := str ("string"),
       description := str ("Required - the subject"), required := true,
       default := none } : ApiParameter).required =
      (containsSub (toLowerS (str ("Required - the subject"))) (str ("required")) ||
        containsSub (toLowerS (str ("Required - the subject"))) (str ("mandatory"))) :=
  c9_required_iff [str ("subject"), str ("Required - the subject")] _ (by decide)

/-- C3 counterexample: the query `freshservice` mentions the domain keyword,
yet the score of the fallback Delete Ticket endpoint is exactly `0`; had the
scorer added a `0.5` domain-keyword bonus to the raw sum, the normalized
score would be at least `0.5 / 7 > 0`.  The scorer of `pipeline.rs` has no
such term. -/
theorem c3_counterexample :
    containsSub (str ("freshservice")) (str ("freshservice")) = true ∧
    calculate_relevance_score fallbackDeleteTicket (str ("freshservice")) = 0 := by
  constructor
  · decide
  · decide

/-- C3 (amended): the relevance scorer applies no domain-keyword bonus: a
query that mentions `api` or `freshservice` but matches none of the lexical
signals (name, description, path, method, parameters, curl) scores exactly
`0`. -/
theorem c3_no_domain_bonus (e : ApiEndpoint) (q : Str)
    (_hdom : containsSub q (str ("api")) = true ∨
      containsSub q (str ("freshservice")) = true)
    (hne : containsSub (toLowerS e.name) q = false)
    (hnw : ∀ w ∈ splitWs q, containsSub (toLowerS e.name) w = false)
    (hde : containsSub (toLowerS e.description) q = false)
    (hdw : ∀ w ∈ splitWs q, containsSub (toLowerS e.description) w = false)
    (hpath : containsSub (toLowerS e.path) q = false)
    (hm : (splitWs q).any (fun word =>
        toLowerS e.method == word ||
        (toLowerS e.method == str ("get") && word == str ("list")) ||
        (toLowerS e.method == str ("get") && word == str ("view")) ||
        (toLowerS e.method == str ("get") && word == str ("fetch"))) = false)
    (hpar : ∀ p ∈ e.parameters, containsSub (toLowerS p.name) q = false ∧
        containsSub (toLowerS p.description) q = false)
    (hcurl : containsSub q (str ("curl")) = false) :
    calculate_relevance_score e q = 0 := by
  have hw1 : (splitWs q).filter (fun w => containsSub (toLowerS e.name) w) = [] :=
    List.filter_eq_nil_iff.mpr (fun w hw => by simp [hnw w hw])
  have hw2 : (splitWs q).filter (fun w => containsSub (toLowerS e.description) w) = [] :=
    List.filter_eq_nil_iff.mpr (fun w hw => by simp [hdw w hw])
  unfold calculate_relevance_score
  simp only [hne, hde, hpath, hm, hcurl, hw1, hw2, Bool.false_eq_true, if_false,
    List.length_nil, Nat.cast_zero, zero_mul, Bool.false_and, Bool.and_eq_true]
  rw [paramLoopScore_eq_zero hpar]
  norm_num

/-- C3 witness: the amended theorem applied to the query `api` against an
endpoint with no lexical overlap. -/
theorem c3_witness : calculate_relevance_score exNameOnlyEndpoint (str ("api")) = 0 :=
  c3_no_domain_bonus exNameOnlyEndpoint (str ("api")) (Or.inl (by decide)) (by decide)
    (by decide) (by decide) (by decide) (by decide) (by decide) (by decide) (by decide)

/-- C5: confidence over an empty match list is exactly `0.1`; over a
non-empty match list it is `0.7` times the best (first) match score plus
`0.3` times the query quality, clamped to `[0.1, 1]`. -/
theorem c5_confidence_formula (query : Str) (found : List (ApiEndpoint × ℚ)) :
    (found = [] → calculate_confidence query found = 0.1) ∧
    (∀ m rest, found = m :: rest →
      calculate_confidence query found =
        max 0.1 (min 1 (0.7 * m.2 + 0.3 * assess_query_quality query))) := by
  constructor
  · intro h; subst h; rfl
  · intro m rest h
    subst h
    unfold calculate_confidence
    rw [if_neg (by simp)]
    dsimp only
    rw [clampQ_eq_max_min _ _ _ (by norm_num)]
    have hhead : (((m :: rest).head?).map (fun m => m.2)).getD 0 = m.2 := rfl
    rw [hhead]
    ring_nf

/-- C5 witness: the theorem applied to the empty list and to a concrete
singleton match list. -/
theorem c5_witness :
    calculate_confidence (str ("create ticket")) [] = 0.1 ∧
    calculate_confidence (str ("create ticket")) [(fallbackCreateTicket, 0.5)] =
      max 0.1 (min 1 (0.7 * 0.5 + 0.3 * assess_query_quality (str ("create ticket")))) :=
  ⟨(c5_confidence_formula (str ("create ticket")) []).1 rfl,
   (c5_confidence_formula (str ("create ticket")) [(fallbackCreateTicket, 0.5)]).2
     (fallbackCreateTicket, 0.5) [] rfl⟩

/-- C1 counterexample: a corpus of six endpoints that all score above the
threshold makes `find_relevant_endpoints` return six matches; the function
itself never truncates to five. -/
theorem c1_counterexample :
    (find_relevant_endpoints exSixTicketDoc (str ("ticket"))).length = 6 := by
  unfold find_relevant_endpoints
  dsimp only
  rw [List.length_mergeSort]
  decide

/-- C1 (amended): `find_relevant_endpoints` returns every endpoint scoring
above `0.1` without truncation; the bound of at most five matches holds for
`get_top_matches` with limit `5`, which truncates its result. -/
theorem c1_top_matches_le_five (doc : ScrapedDocumentation) (query : Str) :
    (get_top_matches doc query 5).length ≤ 5 := by
  unfold get_top_matches
  exact List.length_take_le 5 _

theorem toLowerC_toUpperC (c : Nat) : toLowerC (toUpperC c) = toLowerC c := by
  unfold toLowerC toUpperC
  split_ifs <;> omega

theorem toLowerS_toUpperS (s : Str) : toLowerS (toUpperS s) = toLowerS s := by
  unfold toLowerS toUpperS
  rw [List.map_map]
  exact List.map_congr_left fun c _ => toLowerC_toUpperC c

/-- C10: retrieval is invariant under letter case of the query: any variant
with the same lower-casing — in particular the upper-cased query — yields
the same match sequence with the same scores. -/
theorem c10_case_insensitive (doc : ScrapedDocumentation) (query : Str) :
    find_relevant_endpoints doc (toUpperS query) = find_relevant_endpoints doc query ∧
    ∀ variant : Str, toLowerS variant = toLowerS query →
      find_relevant_endpoints doc variant = find_relevant_endpoints doc query := by
  have key : ∀ v : Str, toLowerS v = toLowerS query →
      find_relevant_endpoints doc v = find_relevant_endpoints doc query := by
    intro v hv
    simp only [find_relevant_endpoints, hv]
  exact ⟨key _ (toLowerS_toUpperS query), key⟩

/-- C10 witness: the theorem applied to the fallback corpus and the
upper-case variant of `create ticket`. -/
theorem c10_witness :
    find_relevant_endpoints fallbackDocumentation (str ("CREATE TICKET")) =
      find_relevant_endpoints fallbackDocumentation (str ("create ticket")) :=
  (c10_case_insensitive fallbackDocumentation (str ("create ticket"))).2
    (str ("CREATE TICKET")) (by decide)

/-- C2 counterexample: the endpoint named `create ticket` scores `3/7` for
the query `create ticket` (exact name bonus `2.0` plus two word hits) but
only `1.5/7` after appending the word `ticket`, which occurs verbatim in the
name: the longer query is no longer a substring of the name, so the `2.0`
exact-match bonus is lost and the score strictly decreases. -/
theorem c2_counterexample :
    containsSub (toLowerS exNameOnlyEndpoint.name) (str ("ticket")) = true ∧
    calculate_relevance_score exNameOnlyEndpoint (str ("create ticket") ++ 32 :: str ("ticket")) <
      calculate_relevance_score exNameOnlyEndpoint (str ("create ticket")) := by
  constructor
  · decide
  · decide

/-- C2 (amended): appending a whitespace-free word that occurs verbatim in
the endpoint's (lower-cased) name never decreases the relevance score,
provided the original query is not itself a substring of the endpoint's
name, description, path, or any parameter name or description (those
whole-query substring bonuses are the only score components a longer query
can lose). -/
theorem c2_monotone (e : ApiEndpoint) (q w : Str)
    (hw : w ≠ []) (hwc : ∀ c ∈ w, isWs c = false)
    (_hwn : containsSub (toLowerS e.name) w = true)
    (hne : containsSub (toLowerS e.name) q = false)
    (hde : containsSub (toLowerS e.description) q = false)
    (hpa : containsSub (toLowerS e.path) q = false)
    (hpar : ∀ p ∈ e.parameters, containsSub (toLowerS p.name) q = false ∧
        containsSub (toLowerS p.description) q = false) :
    calculate_relevance_score e q ≤ calculate_relevance_score e (q ++ 32 :: w) := by
  have hqpre : q <+: (q ++ 32 :: w) := List.prefix_append q (32 :: w)
  have hcontra : ∀ s : Str, containsSub s q = false →
      containsSub s (q ++ 32 :: w) = false := by
    intro s hs
    cases h : containsSub s (q ++ 32 :: w)
    · rfl
    · exact absurd (containsSub_of_prefix_of_contains hqpre h) (by simp [hs])
  have hne' := hcontra _ hne
  have hde' := hcontra _ hde
  have hpa' := hcontra _ hpa
  have hpar' : ∀ p ∈ e.parameters, containsSub (toLowerS p.name) (q ++ 32 :: w) = false ∧
      containsSub (toLowerS p.description) (q ++ 32 :: w) = false :=
    fun p hp => ⟨hcontra _ (hpar p hp).1, hcontra _ (hpar p hp).2⟩
  have hwords := splitWs_append_word q w hw hwc
  unfold calculate_relevance_score
  dsimp only
  rw [hwords]
  simp only [hne, hne', hde, hde', hpa, hpa', Bool.false_eq_true, if_false,
    List.filter_append, List.length_append, List.any_append, Nat.cast_add,
    paramLoopScore_eq_zero hpar, paramLoopScore_eq_zero hpar', zero_add, add_zero]
  apply min_le_min _ (le_refl 1)
  gcongr
  · exact le_add_of_nonneg_right (by positivity)
  · exact le_add_of_nonneg_right (by positivity)
  · split_ifs with h1 h2
    · norm_num
    · exact (h2 (by simp [h1])).elim
    · norm_num
    · norm_num
  · split_ifs with h1 h2
    · norm_num
    · refine (h2 ?_).elim
      obtain ⟨ha, hb⟩ : containsSub q (str ("curl")) = true ∧ e.curl_example.isSome = true := by
        simpa using h1
      simp [containsSub_extend ha, hb]
    · norm_num
    · norm_num

/-- C2 witness: the amended theorem applied to a concrete endpoint, query and
appended word. -/
theorem c2_witness :
    calculate_relevance_score exTicketEndpoint (str ("delete")) ≤
      calculate_relevance_score exTicketEndpoint (str ("delete") ++ 32 :: str ("ticket")) :=
  c2_monotone exTicketEndpoint (str ("delete")) (str ("ticket")) (by decide) (by decide)
    (by decide) (by decide) (by decide) (by decide) (by decide)

theorem scored_filterMap (l : List ApiEndpoint) (ql : Str) :
    l.filterMap (fun endpoint =>
      if calculate_relevance_score endpoint ql > 0.1
        then some (endpoint, calculate_relevance_score endpoint ql) else none) =
    (l.map (fun endpoint => (endpoint, calculate_relevance_score endpoint ql))).filter
      (fun m => decide (m.2 > 0.1)) := by
  induction l with
  | nil => rfl
  | cons e rest ih =>
    simp only [List.filterMap_cons, List.map_cons, List.filter_cons]
    by_cases h : calculate_relevance_score e ql > 0.1
    · simp [h, ih]
    · simp [h, ih]

/-- C6: the sequence returned by `find_relevant_endpoints` consists exactly
of the endpoints whose normalized score exceeds `0.1` (a permutation of the
filtered corpus in pairing with their scores), is sorted in descending score
order, and matches with equal scores keep their original document order
(filtering the output by any fixed score value gives the same list as
filtering the input). -/
theorem c6_ranking (doc : ScrapedDocumentation) (query : Str) :
    (find_relevant_endpoints doc query).Perm
      ((doc.endpoints.map (fun e => (e, calculate_relevance_score e (toLowerS query)))).filter
        (fun m => decide (m.2 > 0.1))) ∧
    (find_relevant_endpoints doc query).Pairwise (fun a b => b.2 ≤ a.2) ∧
    ∀ s : ℚ, (find_relevant_endpoints doc query).filter (fun m => decide (m.2 = s)) =
      ((doc.endpoints.map (fun e => (e, calculate_relevance_score e (toLowerS query)))).filter
        (fun m => decide (m.2 > 0.1))).filter (fun m => decide (m.2 = s)) := by
  have htrans : ∀ (a b c : ApiEndpoint × ℚ), decide (b.2 ≤ a.2) = true →
      decide (c.2 ≤ b.2) = true → decide (c.2 ≤ a.2) = true := by
    intro a b c hab hbc
    simp only [decide_eq_true_eq] at *
    exact le_trans hbc hab
  have htotal : ∀ (a b : ApiEndpoint × ℚ),
      (decide (b.2 ≤ a.2) || decide (a.2 ≤ b.2)) = true := by
    intro a b
    rcases le_total b.2 a.2 with h | h <;> simp [h]
  have hfind : find_relevant_endpoints doc query =
      ((doc.endpoints.map (fun e => (e, calculate_relevance_score e (toLowerS query)))).filter
        (fun m => decide (m.2 > 0.1))).mergeSort (fun a b => decide (b.2 ≤ a.2)) := by
    unfold find_relevant_endpoints
    dsimp only
    rw [scored_filterMap]
  refine ⟨?_, ?_, ?_⟩
  · rw [hfind]
    exact List.mergeSort_perm _ _
  · rw [hfind]
    exact (List.sorted_mergeSort htrans htotal _).imp (fun h => of_decide_eq_true h)
  · intro s
    rw [hfind]
    have hall : ∀ m ∈ ((doc.endpoints.map
        (fun e => (e, calculate_relevance_score e (toLowerS query)))).filter
        (fun m => decide (m.2 > 0.1))).filter (fun m => decide (m.2 = s)),
        decide (m.2 = s) = true := fun m hm => (List.mem_filter.mp hm).2
    have hsub : List.Sublist (((doc.endpoints.map
        (fun e => (e, calculate_relevance_score e (toLowerS query)))).filter
        (fun m => decide (m.2 > 0.1))).filter (fun m => decide (m.2 = s)))
        (((doc.endpoints.map (fun e => (e, calculate_relevance_score e (toLowerS query)))).filter
          (fun m => decide (m.2 > 0.1))).mergeSort (fun a b => decide (b.2 ≤ a.2))) := by
      apply List.sublist_mergeSort htrans htotal
      · apply List.pairwise_of_forall_mem_list
        intro a ha b hb
        have ha2 : a.2 = s := of_decide_eq_true (List.mem_filter.mp ha).2
        have hb2 : b.2 = s := of_decide_eq_true (List.mem_filter.mp hb).2
        simp [ha2, hb2]
      · exact List.filter_sublist _
    have hsub2 := hsub.filter (fun m => decide (m.2 = s))
    rw [List.filter_eq_self.mpr hall] at hsub2
    have hlen := ((List.mergeSort_perm ((doc.endpoints.map
        (fun e => (e, calculate_relevance_score e (toLowerS query)))).filter
        (fun m => decide (m.2 > 0.1))) (fun a b => decide (b.2 ≤ a.2))).filter
        (fun m => decide (m.2 = s))).length_eq
    exact (hsub2.eq_of_length (hlen.symm)).symm

theorem dedupKey_codeBlockRecord (cb : CodeBlock) :
    dedupKey (codeBlockRecord cb) =
      codeBlockMethod cb.text ++ 32 :: extract_path_from_text cb.text := rfl

theorem dedupFold_append (xs ys : List ApiEndpoint) :
    ∀ seen, dedupFold (xs ++ ys) seen =
      ((dedupFold xs seen).1 ++ (dedupFold ys (dedupFold xs seen).2).1,
       (dedupFold ys (dedupFold xs seen).2).2) := by
  induction xs with
  | nil => intro seen; simp [dedupFold]
  | cons e rest ih =>
    intro seen
    by_cases h : dedupKey e ∈ seen
    · simp only [List.cons_append, dedupFold, if_pos h, List.append_eq]
      exact ih seen
    · simp only [List.cons_append, dedupFold, if_neg h, List.append_eq]
      rw [ih (dedupKey e :: seen)]

theorem keepFirstByKey_cons (e : ApiEndpoint) (l : List ApiEndpoint) :
    keepFirstByKey (e :: l) =
      e :: keepFirstByKey (l.filter (fun e2 => !(dedupKey e2 == dedupKey e))) := by
  rw [keepFirstByKey]

theorem dedupFold_fst_eq_keepFirst (recs : List ApiEndpoint) :
    ∀ seen, (dedupFold recs seen).1 =
      keepFirstByKey (recs.filter (fun e => !(decide (dedupKey e ∈ seen)))) := by
  induction recs with
  | nil => intro seen; simp [dedupFold, keepFirstByKey]
  | cons e rest ih =>
    intro seen
    by_cases h : dedupKey e ∈ seen
    · rw [dedupFold, if_pos h, List.filter_cons, if_neg (by simp [h])]
      exact ih seen
    · rw [dedupFold, if_neg h]
      dsimp only
      rw [List.filter_cons, if_pos (by simp [h]), keepFirstByKey_cons,
        ih (dedupKey e :: seen), List.filter_filter]
      congr 1
      congr 1
      apply List.filter_congr
      intro x _
      by_cases h1 : dedupKey x = dedupKey e
      · simp [h1, List.mem_cons]
      · by_cases h2 : dedupKey x ∈ seen
        · simp [h1, h2, List.mem_cons]
        · simp [h1, h2, List.mem_cons]

theorem mem_dedupFold (l : List ApiEndpoint) :
    ∀ seen, ∀ e ∈ (dedupFold l seen).1, e ∈ l := by
  induction l with
  | nil => intro seen e he; exact absurd he (by simp [dedupFold])
  | cons a rest ih =>
    intro seen e he
    by_cases h : dedupKey a ∈ seen
    · rw [dedupFold, if_pos h] at he
      exact List.mem_cons_of_mem _ (ih seen e he)
    · rw [dedupFold, if_neg h] at he
      rcases List.mem_cons.mp he with h1 | h1
      · exact h1 ▸ List.mem_cons_self _ _
      · exact List.mem_cons_of_mem _ (ih _ e h1)

theorem mem_keepFirstByKey (l : List ApiEndpoint) :
    ∀ e ∈ keepFirstByKey l, e ∈ l := by
  induction l using keepFirstByKey.induct with
  | case1 => simp [keepFirstByKey]
  | case2 e rest ih =>
    intro x hx
    rw [keepFirstByKey_cons] at hx
    rcases List.mem_cons.mp hx with h | h
    · exact h ▸ List.mem_cons_self _ _
    · exact List.mem_cons_of_mem _ (List.mem_of_mem_filter (ih x h))

theorem keepFirstByKey_pairwise (l : List ApiEndpoint) :
    (keepFirstByKey l).Pairwise (fun a b => dedupKey a ≠ dedupKey b) := by
  induction l using keepFirstByKey.induct with
  | case1 => simp [keepFirstByKey]
  | case2 e rest ih =>
    rw [keepFirstByKey_cons]
    refine List.Pairwise.cons ?_ ih
    intro b hb
    have hb' := mem_keepFirstByKey _ b hb
    have hfil := List.of_mem_filter hb'
    simp only [Bool.not_eq_eq_eq_not, Bool.not_true, beq_eq_false_iff_ne, ne_eq] at hfil
    exact fun hcontra => hfil hcontra.symm

theorem codeBlocksLoop_eq_raw (blocks : List CodeBlock) :
    ∀ seen, codeBlocksLoop blocks seen = (dedupFold (strategyBRaw blocks) seen).1 := by
  induction blocks with
  | nil => intro seen; rfl
  | cons cb rest ih =>
    intro seen
    cases hA : containsSub cb.text (str ("curl"))
    · have h1 : (!(containsSub cb.text (str ("curl"))) ||
          !(containsSub cb.text (str ("/tickets")))) = true := by simp [hA]
      have hq : codeBlockQualifies cb = false := by simp [codeBlockQualifies, hA]
      rw [codeBlocksLoop, if_pos h1, strategyBRaw, if_neg (by simp [hq])]
      exact ih seen
    · cases hB : containsSub cb.text (str ("/tickets"))
      · have h1 : (!(containsSub cb.text (str ("curl"))) ||
            !(containsSub cb.text (str ("/tickets")))) = true := by simp [hB]
        have hq : codeBlockQualifies cb = false := by simp [codeBlockQualifies, hA, hB]
        rw [codeBlocksLoop, if_pos h1, strategyBRaw, if_neg (by simp [hq])]
        exact ih seen
      · have h1 : (!(containsSub cb.text (str ("curl"))) ||
            !(containsSub cb.text (str ("/tickets")))) = false := by simp [hA, hB]
        cases hC : containsSub (extract_path_from_text cb.text) (str ("/tickets"))
        · have hq : codeBlockQualifies cb = false := by
            simp [codeBlockQualifies, hA, hB, hC]
          rw [codeBlocksLoop, if_neg (by simp [h1])]
          dsimp only
          rw [if_pos (by simp [hC]), strategyBRaw, if_neg (by simp [hq])]
          exact ih seen
        · have hq : codeBlockQualifies cb = true := by
            simp [codeBlockQualifies, hA, hB, hC]
          rw [codeBlocksLoop, if_neg (by simp [h1])]
          dsimp only
          rw [if_neg (by simp [hC]), strategyBRaw, if_pos hq, dedupFold,
            dedupKey_codeBlockRecord]
          by_cases h3 : (codeBlockMethod cb.text ++ 32 :: extract_path_from_text cb.text) ∈ seen
          · rw [if_pos h3, if_pos h3]
            exact ih seen
          · rw [if_neg h3, if_neg h3]
            dsimp only
            rw [ih]

theorem extract_endpoints_char (doc : HtmlDoc) :
    extract_endpoints doc =
      if (keepFirstByKey (strategyA doc ++ strategyB doc)).isEmpty
      then fallback_endpoint_extraction
      else keepFirstByKey (strategyA doc ++ strategyB doc) := by
  have hkey : (dedupFold (strategyA doc ++ strategyB doc) []).1 =
      keepFirstByKey (strategyA doc ++ strategyB doc) := by
    rw [dedupFold_fst_eq_keepFirst]
    congr 1
    apply List.filter_eq_self.mpr
    intro a _
    simp
  have h1 : (dedupFold (strategyA doc) []).1 ++
      (dedupFold (strategyB doc) (dedupFold (strategyA doc) []).2).1 =
      keepFirstByKey (strategyA doc ++ strategyB doc) := by
    rw [← hkey, dedupFold_append]
  unfold extract_endpoints
  dsimp only
  rw [h1]

/-- C4: deduplication keeps only the first-encountered record of every
`(method, path)` key, whether the duplicates arise inside one strategy or
across the two strategies: strategy B's output is the first-occurrence
filter of its raw record stream, the scraped (non-fallback) endpoint list is
the first-occurrence filter of the concatenated candidate streams of
strategy A and strategy B, and no two surviving records share a key. -/
theorem c4_dedup_first_wins (blocks : List CodeBlock) (doc : HtmlDoc) :
    extract_code_blocks_from_section blocks = keepFirstByKey (strategyBRaw blocks) ∧
    extract_endpoints doc =
      (if (keepFirstByKey (strategyA doc ++ strategyB doc)).isEmpty
       then fallback_endpoint_extraction
       else keepFirstByKey (strategyA doc ++ strategyB doc)) ∧
    (keepFirstByKey (strategyA doc ++ strategyB doc)).Pairwise
      (fun a b => dedupKey a ≠ dedupKey b) := by
  refine ⟨?_, extract_endpoints_char doc, keepFirstByKey_pairwise _⟩
  unfold extract_code_blocks_from_section
  rw [codeBlocksLoop_eq_raw, dedupFold_fst_eq_keepFirst]
  congr 1
  apply List.filter_eq_self.mpr
  intro a _
  simp

theorem parse_ne_unknown (sec : DocSection) (e : ApiEndpoint)
    (h : parse_endpoint_section sec = some e) :
    e.path ≠ str ("/api/v2/unknown") := by
  unfold parse_endpoint_section at h
  dsimp only at h
  split at h
  · exact Option.noConfusion h
  · split at h
    · exact Option.noConfusion h
    · split at h
      · exact Option.noConfusion h
      · rename_i hpath
        cases h
        exact hpath

theorem strategyBRaw_path (blocks : List CodeBlock) :
    ∀ e ∈ strategyBRaw blocks, containsSub e.path (str ("/tickets")) = true := by
  induction blocks with
  | nil => intro e he; exact absurd he (by simp [strategyBRaw])
  | cons cb rest ih =>
    intro e he
    rw [strategyBRaw] at he
    by_cases hq : codeBlockQualifies cb = true
    · rw [if_pos hq] at he
      rcases List.mem_cons.mp he with h1 | h1
      · subst h1
        have := hq
        unfold codeBlockQualifies at this
        have hc : containsSub (extract_path_from_text cb.text) (str ("/tickets")) = true := by
          rcases Bool.and_eq_true_iff.mp this with ⟨_, h⟩
          exact h
        exact hc
      · exact ih e h1
    · rw [if_neg hq] at he
      exact ih e he

/-- C8: when the path extractor finds no path in a section's code block (it
returns the sentinel `/api/v2/unknown`), the section parser yields no
record; and no `ApiEndpoint` produced by `extract_endpoints` — from either
strategy or from the fallback catalog — ever carries the synthetic path
`/api/v2/unknown`. -/
theorem c8_no_unknown_path (sec : DocSection) (ce : Str) (doc : HtmlDoc) :
    (sec.codeBlocks.head? = some ce →
      extract_path_from_text (trimS ce) = str ("/api/v2/unknown") →
      parse_endpoint_section sec = none) ∧
    ∀ e ∈ extract_endpoints doc, e.path ≠ str ("/api/v2/unknown") := by
  constructor
  · intro hhead hpath
    unfold parse_endpoint_section
    have hcurl : Option.map trimS sec.codeBlocks.head? = some (trimS ce) := by
      rw [hhead]; rfl
    rw [hcurl]
    dsimp only
    split
    · rfl
    · rw [if_pos hpath]
  · intro e he
    rw [extract_endpoints_char] at he
    split at he
    · -- fallback catalog
      simp only [fallback_endpoint_extraction, List.mem_cons, List.not_mem_nil,
        or_false] at he
      rcases he with h | h | h | h | h <;> (subst h; decide)
    · have hmem := mem_keepFirstByKey _ e he
      rcases List.mem_append.mp hmem with hA | hB
      · obtain ⟨d, _, hd2⟩ := List.mem_filterMap.mp hA
        exact parse_ne_unknown _ _ hd2
      · unfold strategyB at hB
        split at hB
        · unfold extract_code_blocks_from_section at hB
          rw [codeBlocksLoop_eq_raw] at hB
          have hc := strategyBRaw_path _ e (mem_dedupFold _ _ e hB)
          intro hcontra
          rw [hcontra] at hc
          exact absurd hc (by decide)
        · exact absurd hB (by simp)

/-- C8 witness: the theorem applied to a concrete section whose code block
has no extractable path and a concrete document. -/
theorem c8_witness :
    parse_endpoint_section exNoPathSection = none ∧
    ∀ e ∈ extract_endpoints exEmptyHtmlDoc, e.path ≠ str ("/api/v2/unknown") :=
  ⟨(c8_no_unknown_path exNoPathSection (str ("curl https://example.com/help"))
      exEmptyHtmlDoc).1 (by decide) (by decide),
   (c8_no_unknown_path exNoPathSection (str ("curl https://example.com/help"))
      exEmptyHtmlDoc).2⟩

/-- C7 counterexample: a document from which strategy A extracts exactly one
endpoint yields an extraction result of length `1`, refuting the claim that
the extraction result always holds at least five endpoints. -/
theorem c7_counterexample :
    (extract_endpoints exSingleDivDoc).length = 1 ∧
    ¬ 5 ≤ (extract_endpoints exSingleDivDoc).length := by
  constructor
  · decide
  · decide

/-- C7 (amended): extraction never fails and never returns an empty list;
when the two strategies together yield zero records, the result is exactly
the fixed fallback catalog, which holds five endpoints (the five canonical
ticket operations). -/
theorem c7_fallback (doc : HtmlDoc) :
    extract_endpoints doc ≠ [] ∧
    (strategyA doc ++ strategyB doc = [] →
      extract_endpoints doc = fallback_endpoint_extraction) ∧
    fallback_endpoint_extraction.length = 5 := by
  refine ⟨?_, ?_, rfl⟩
  · rw [extract_endpoints_char]
    split
    · simp [fallback_endpoint_extraction]
    · rename_i hne
      exact fun hcontra => hne (by simp [hcontra])
  · intro h
    rw [extract_endpoints_char, h]
    simp [keepFirstByKey]

/-- C7 witness: the amended theorem applied to a document in which both
strategies find nothing. -/
theorem c7_witness :
    extract_endpoints exEmptyHtmlDoc = fallback_endpoint_extraction ∧
    extract_endpoints exEmptyHtmlDoc ≠ [] :=
  ⟨(c7_fallback exEmptyHtmlDoc).2.1 (by decide), (c7_fallback exEmptyHtmlDoc).1⟩
